import Mathlib

/-!
Shallow embedding of the documentation content pipeline implemented in
`website/scripts/generate-content.ts` (the markdown → site-data batch build
script of the repository), together with proofs about its data
transformations.

Modelling conventions:
* JS strings are Lean `String`s; the string operations the script uses
  (`startsWith`, `endsWith`, `split`, `trim`, regex matching on a line) are
  re-implemented below over `String.data : List Char`, which matches the JS
  semantics on the ASCII inputs the script handles and is convenient for
  both proofs and kernel evaluation.
* Front matter (the `gray-matter` collaborator) is modelled as an
  already-split typed record of optional fields (`FrontMatter`), and a file
  as its name, front matter and body (`MdFile`).
* The markdown renderer (`marked`) and the syntax highlighter (`shiki`) are
  external collaborators: rendering a body is an abstract
  `render : String → String` parameter, and the highlighter is a pair of a
  loaded-language list and a `codeToHtml` function that may fail
  (`Except String String`), mirroring the `try/catch` in the script.
* JS `Array.prototype.sort` (ES2019+) is a stable sort driven by its
  comparator; it is modelled by the stable insertion sort `jsSortBy`,
  which agrees with every stable sort for a total transitive comparator.
* `x || default` on JS strings/numbers treats `""` and `0` as falsy; this
  is modelled explicitly by `orDefaultS` / `orDefaultI`.
-/

set_option autoImplicit false

namespace GenContent

/-! ## JS-style string primitives (over `String.data`) -/

/-- Models JS `String.prototype.startsWith`. -/
def strStarts (s pre : String) : Bool :=
  pre.data.isPrefixOf s.data

/-- Models JS `String.prototype.endsWith`. -/
def strEnds (s suf : String) : Bool :=
  suf.data.isSuffixOf s.data

/-- Drop the first `n` characters. -/
def strDrop (s : String) (n : Nat) : String :=
  String.mk (s.data.drop n)

/-- Longest initial run of characters satisfying `p`. -/
def strTake (p : Char → Bool) (s : String) : String :=
  String.mk (s.data.takeWhile p)

/-- Character count. -/
def strLen (s : String) : Nat :=
  s.data.length

/-- ASCII whitespace test, the characters relevant to `String.prototype.trim`
on this repository's content. -/
def isWs (c : Char) : Bool :=
  c = ' ' ∨ c = '\t' ∨ c = '\n' ∨ c = '\r'

/-- Models JS `String.prototype.trim`. -/
def jsTrim (s : String) : String :=
  String.mk (((s.data.dropWhile isWs).reverse.dropWhile isWs).reverse)

/-- Helper for `jsSplit`: split a character list at every separator,
keeping empty pieces (JS `split` semantics). -/
def jsSplitAux (sep : Char) : List Char → List Char → List String
  | [], acc => [String.mk acc.reverse]
  | c :: cs, acc =>
    if c = sep then String.mk acc.reverse :: jsSplitAux sep cs []
    else jsSplitAux sep cs (c :: acc)

/-- Models JS `String.prototype.split` with a one-character separator. -/
def jsSplit (s : String) (sep : Char) : List String :=
  jsSplitAux sep s.data []

/-- Models `filename.split("-")[0]`: the substring before the first `-`
(or the whole string when there is no `-`). -/
def sectionKeyOf (filename : String) : String :=
  strTake (fun c => c ≠ '-') filename

/-- Models `filename.replace(/\.md$/, "")`, the slug derivation. -/
def slugOf (filename : String) : String :=
  if strEnds filename ".md" then String.mk (filename.data.take (strLen filename - 3))
  else filename

/-! ## JS falsy-aware defaulting (`x || default`, `x ? a : b`) -/

/-- Models `v || d` for a possibly-absent JS string (`""` is falsy). -/
def orDefaultS (v : Option String) (d : String) : String :=
  match v with
  | none => d
  | some s => if s = "" then d else s

/-- Models `v || d` for a possibly-absent JS number (`0` is falsy). -/
def orDefaultI (v : Option Int) (d : Int) : Int :=
  match v with
  | none => d
  | some n => if n = 0 then d else n

/-! ## Data model (the script's TS interfaces) -/

/-- `interface SectionMeta` of the script. -/
structure SectionMeta where
  order : Nat
  id : String
  title : String
  impact : String
  description : String
deriving Repr, DecidableEq

/-- `interface RuleMeta` of the script. -/
structure RuleMeta where
  slug : String
  filename : String
  title : String
  impact : String
  impactDescription : String
  tags : List String
  /-- The TS field is literally named `section`; that is a Lean keyword,
  hence the name `sectionId` here. -/
  sectionId : String
  content : String
deriving Repr, DecidableEq

/-- `interface GuideMeta` of the script. -/
structure GuideMeta where
  slug : String
  filename : String
  title : String
  description : String
  order : Int
  category : String
  difficulty : String
  estimatedTime : String
  prerequisites : List String
  content : String
deriving Repr, DecidableEq

/-- `interface ConceptMeta` of the script. -/
structure ConceptMeta where
  slug : String
  filename : String
  title : String
  description : String
  order : Int
  category : String
  relatedRules : List String
  content : String
deriving Repr, DecidableEq

/-- Typed model of the front-matter record returned by `gray-matter`
(`data` in the script); absent keys are `none`. -/
structure FrontMatter where
  title : Option String := none
  description : Option String := none
  impact : Option String := none
  impactDescription : Option String := none
  tags : Option String := none
  order : Option Int := none
  category : Option String := none
  difficulty : Option String := none
  estimatedTime : Option String := none
  prerequisites : Option (List String) := none
  relatedRules : Option (List String) := none
deriving Repr, DecidableEq

/-- A markdown file: its name plus the result of the `matter(fileContent)`
split into front matter and body. -/
structure MdFile where
  filename : String
  data : FrontMatter := {}
  body : String := ""
deriving Repr, DecidableEq

/-! ## Markdown renderer customizations (`createMarkedRenderer`) -/

/-- `const BASE_PATH = "/agent-nestjs-skills"` in the script. -/
def BASE_PATH : String := "/agent-nestjs-skills"

/-- The `langMap` alias table of the code renderer. -/
def langAlias (l : String) : Option String :=
  if l = "ts" then some "typescript"
  else if l = "js" then some "javascript"
  else if l = "sh" then some "bash"
  else if l = "shell" then some "bash"
  else if l = "yml" then some "yaml"
  else none

/-- `const language = lang || "plaintext"`: the label displayed on the code
block (the original, alias-unmapped language). -/
def codeLabel (lang : Option String) : String :=
  match lang with
  | none => "plaintext"
  | some l => if l = "" then "plaintext" else l

/-- `const normalizedLang = langMap[language] || language`. -/
def resolvedLang (lang : Option String) : String :=
  (langAlias (codeLabel lang)).getD (codeLabel lang)

/-- `const finalLang = supportedLangs.includes(normalizedLang) ? normalizedLang
: "plaintext"`. -/
def chosenLang (loaded : List String) (lang : Option String) : String :=
  if loaded.contains (resolvedLang lang) then resolvedLang lang else "plaintext"

/-- The template literal wrapping highlighted output in a labelled container
(exact text of the script, with the two interpolation holes). -/
def codeContainer (label highlighted : String) : String :=
  "<div class=\"code-block\" data-language=\"" ++ label ++ "\">\n        <div class=\"code-block-header\">\n          <span class=\"code-block-lang\">" ++ label ++ "</span>\n        </div>\n        " ++ highlighted ++ "\n      </div>"

/-- Models JS `.replace(/c/g, rep)` for a one-character pattern. -/
def strReplaceChar (s : String) (c : Char) (rep : String) : String :=
  String.mk (s.data.flatMap (fun x => if x = c then rep.data else [x]))

/-- The chained `.replace(/&/g, "&amp;").replace(/</g, "&lt;").replace(/>/g, "&gt;")`
escaping of the catch branch. -/
def escapeHtml (s : String) : String :=
  strReplaceChar (strReplaceChar (strReplaceChar s '&' "&amp;") '<' "&lt;") '>' "&gt;"

/-- The `<pre><code>` fallback emitted when highlighting throws. -/
def escapedPre (label text : String) : String :=
  "<pre><code class=\"language-" ++ label ++ "\">" ++ escapeHtml text ++ "</code></pre>"

/-- `renderer.code`: the custom code-block renderer. `loaded` models
`hl.getLoadedLanguages()` and `codeToHtml` models `hl.codeToHtml`, which may
throw (`Except.error`); the `match` is the `try/catch`. -/
def renderCode (loaded : List String) (codeToHtml : String → String → Except String String)
    (lang : Option String) (text : String) : String :=
  match codeToHtml (chosenLang loaded lang) text with
  | .ok highlighted => codeContainer (codeLabel lang) highlighted
  | .error _ => escapedPre (codeLabel lang) text

/-- `const title = token.title ? \` title="${token.title}"\` : ""`. -/
def titleAttr (title : Option String) : String :=
  match title with
  | none => ""
  | some t => if t = "" then "" else " title=\"" ++ t ++ "\""

/-- `renderer.link`: the custom link renderer. `text` models the rendered
inline content (`this.parser?.parseInline(token.tokens) || token.text`). -/
def renderLink (basePath : String) (href : Option String) (title : Option String)
    (text : String) : String :=
  let h := href.getD ""
  let finalHref := if strStarts h "/" && !strStarts h "//" then basePath ++ h else h
  if strStarts h "http://" || strStarts h "https://" then
    "<a href=\"" ++ finalHref ++ "\"" ++ titleAttr title ++
      " target=\"_blank\" rel=\"noopener noreferrer\">" ++ text ++ "</a>"
  else
    "<a href=\"" ++ finalHref ++ "\"" ++ titleAttr title ++ ">" ++ text ++ "</a>"

/-! ## Section index parser (`parseSections`) -/

/-- JS `\w`: ASCII letters, digits and underscore. -/
def isWordChar (c : Char) : Bool :=
  c.isAlphanum || c = '_'

/-- `parseInt(digits, 10)` on an all-digit string. -/
def natOfDigits (s : String) : Nat :=
  s.data.foldl (fun n c => n * 10 + (c.toNat - 48)) 0

/-- The three capture groups of a heading match. -/
structure HeaderInfo where
  order : Nat
  title : String
  id : String
deriving Repr, DecidableEq

/-- Models `line.match(/^## (\d+)\. ([^(]+)\s*\((\w+)\)/)`.

The regex is anchored at the start only.  `[^(]+` cannot cross a `(` and
`\s*` matches only whitespace, so on success group 2 is exactly the
(nonempty) text before the first `(`, which must be immediately followed by
`\w+` and `)`.  The script stores `headerMatch[2].trim()` as the title, so
the title is trimmed here as well. -/
def matchHeader (line : String) : Option HeaderInfo :=
  if strStarts line "## " then
    let r1 := strDrop line 3
    let digits := strTake Char.isDigit r1
    if digits = "" then none
    else
      let r2 := strDrop r1 (strLen digits)
      if strStarts r2 ". " then
        let r3 := strDrop r2 2
        let pre := strTake (fun c => c ≠ '(') r3
        if pre = "" then none
        else if strStarts (strDrop r3 (strLen pre)) "(" then
          let r4 := strDrop r3 (strLen pre + 1)
          let w := strTake isWordChar r4
          if w = "" then none
          else if strStarts (strDrop r4 (strLen w)) ")" then
            some { order := natOfDigits digits, title := jsTrim pre, id := w }
          else none
        else none
      else none
  else none

/-- Models `line.match(/^\*\*Impact:\*\*\s*(.+)/)` followed by `.trim()` on
the capture (and likewise for `Description`).

The `.` of `(.+)` matches any character except a line terminator; the lines
come from `split("\n")`, so the only terminator they can still contain is
`\r`.  With greedy `\s*` and backtracking this gives three cases for the
remainder after the label:
* it contains a non-whitespace character: `\s*` stops at the first one and
  `(.+)` captures from there up to the next `\r` (or the end); after
  `.trim()` the stored value is that capture trimmed;
* it is nonempty, all whitespace, with some non-`\r` character: `\s*` backs
  off to let `(.+)` capture a lone whitespace character, which trims to `""`;
* it is empty or consists only of `\r`: `(.+)` finds no matchable
  character and the line is ignored. -/
def matchField (label line : String) : Option String :=
  if strStarts line label then
    let rest := line.data.drop (strLen label)
    let tail := rest.dropWhile isWs
    if tail ≠ [] then
      some (jsTrim (String.mk (tail.takeWhile (fun c => c ≠ '\r'))))
    else if rest.any (fun c => c ≠ '\r') then some ""
    else none
  else none

def matchImpact (line : String) : Option String :=
  matchField "**Impact:**" line

def matchDescription (line : String) : Option String :=
  matchField "**Description:**" line

/-- `sections.push(currentSection)` guarded by
`if (currentSection && currentSection.id)`. -/
def flushSec (cur : Option SectionMeta) : List SectionMeta :=
  match cur with
  | none => []
  | some s => if s.id = "" then [] else [s]

/-- Build the fresh `currentSection` object from a heading match. -/
def sectionOfHeader (h : HeaderInfo) : SectionMeta :=
  { order := h.order, title := h.title, id := h.id, impact := "", description := "" }

/-- The `for (const line of lines)` loop of `parseSections`, with the
trailing flush after the loop. -/
def sectionsLoop : Option SectionMeta → List String → List SectionMeta
  | cur, [] => flushSec cur
  | cur, l :: ls =>
    match matchHeader l with
    | some h => flushSec cur ++ sectionsLoop (some (sectionOfHeader h)) ls
    | none =>
      match cur with
      | none => sectionsLoop none ls
      | some s =>
        match matchImpact l with
        | some v => sectionsLoop (some { s with impact := v }) ls
        | none =>
          match matchDescription l with
          | some v => sectionsLoop (some { s with description := v }) ls
          | none => sectionsLoop (some s) ls

/-- `parseSections` on the lines of the control file
(`content.split("\n")`). -/
def parseSections (lines : List String) : List SectionMeta :=
  sectionsLoop none lines

/-- `parseSections` on the raw text of `rules/_sections.md`. -/
def parseSectionsText (content : String) : List SectionMeta :=
  parseSections (jsSplit content '\n')

/-- One iteration of the loop body for a non-heading line seen while a
current section exists: try the `Impact:` field, then the `Description:`
field, else leave the section unchanged. -/
def applyField (s : SectionMeta) (l : String) : SectionMeta :=
  match matchImpact l with
  | some v => { s with impact := v }
  | none =>
    match matchDescription l with
    | some v => { s with description := v }
    | none => s

/-- Reference segmentation of the control file, used to state per-section
properties of `parseSections`: each matching heading paired with the run of
non-heading lines that follow it (its body, up to the next heading).  This
is a specification-side construction, not a transcription of the source;
`parseSections_eq_segments` connects the two. -/
def segmentsLoop : Option (HeaderInfo × List String) → List String →
    List (HeaderInfo × List String)
  | cur, [] =>
    (match cur with | some hb => [hb] | none => [])
  | cur, l :: ls =>
    match matchHeader l with
    | some h =>
      (match cur with | some hb => [hb] | none => []) ++ segmentsLoop (some (h, [])) ls
    | none =>
      match cur with
      | none => segmentsLoop none ls
      | some hb => segmentsLoop (some (hb.1, hb.2 ++ [l])) ls

def segments (lines : List String) : List (HeaderInfo × List String) :=
  segmentsLoop none lines

/-- The section a segment elaborates to: the fresh section of the heading,
updated by each body line in turn. -/
def emitSection (hb : HeaderInfo × List String) : SectionMeta :=
  hb.2.foldl applyField (sectionOfHeader hb.1)

/-! ## Stable sort, modelling `Array.prototype.sort(cmp)`

JS `sort` (ES2019+) is stable; for a total, transitive comparator every
stable sort produces the same list, so the insertion sort below is an exact
model.  `le a b` models `cmp(a, b) <= 0`. -/

def jsInsert {α : Type} (le : α → α → Bool) (x : α) : List α → List α
  | [] => [x]
  | y :: ys => if le x y then x :: y :: ys else y :: jsInsert le x ys

def jsSortBy {α : Type} (le : α → α → Bool) : List α → List α
  | [] => []
  | x :: xs => jsInsert le x (jsSortBy le xs)

/-- Comparator induced by an integer sort key, modelling the numeric
comparator `(a, b) => key(a) - key(b)`. -/
def keyLe {α : Type} (key : α → Int) (a b : α) : Bool :=
  decide (key a ≤ key b)

/-! ## JS `Map` with string keys (only `get` / `set` are used) -/

/-- `Map.prototype.get` (string keys). -/
def lookupG {α : Type} : List (String × α) → String → Option α
  | [], _ => none
  | kv :: m, k => if kv.1 = k then some kv.2 else lookupG m k

/-- `Map.prototype.set`: replace in place, or append a new key. -/
def setG {α : Type} : List (String × α) → String → α → List (String × α)
  | [], k, v => [(k, v)]
  | kv :: m, k, v => if kv.1 = k then (k, v) :: m else kv :: setG m k v

/-! ## Content item parsers (`parseRules`, `parseGuides`, `parseConcepts`) -/

/-- Models `data.tags ? data.tags.split(",").map((t) => t.trim()) : []`
(`""` is falsy, so a present-but-empty value also yields `[]`). -/
def tagsOf (tv : Option String) : List String :=
  match tv with
  | none => []
  | some s => if s = "" then [] else (jsSplit s ',').map jsTrim

/-- The `rules.push({...})` object literal of `parseRules`, for a file whose
section lookup found `s`.  `render` models `marked.parse(content, {renderer})`. -/
def mkRule (render : String → String) (s : SectionMeta) (f : MdFile) : RuleMeta :=
  { slug := slugOf f.filename
    filename := f.filename
    title := orDefaultS f.data.title (slugOf f.filename)
    impact := orDefaultS f.data.impact s.impact
    impactDescription := orDefaultS f.data.impactDescription ""
    tags := tagsOf f.data.tags
    sectionId := s.id
    content := render f.body }

/-- The warning printed for a rule file whose filename's section key matches
no section. -/
def warnMsg (filename : String) : String :=
  "Warning: No section found for rule " ++ filename ++ " (prefix: " ++
    sectionKeyOf filename ++ ")"

/-- The per-file loop of `parseRules`: look up the section by the part of
the filename before the first `-`; on a miss, log a warning and skip the
file; on a hit, emit the rule record.  Returns (rules, warnings). -/
def parseRulesFiles (render : String → String) (sections : List SectionMeta) :
    List MdFile → List RuleMeta × List String
  | [] => ([], [])
  | f :: fs =>
    let rest := parseRulesFiles render sections fs
    match sections.find? (fun s => s.id == sectionKeyOf f.filename) with
    | none => (rest.1, warnMsg f.filename :: rest.2)
    | some s => (mkRule render s f :: rest.1, rest.2)

/-- The candidate filter of `parseRules`:
`f.endsWith(".md") && !f.startsWith("_")`. -/
def ruleCandidates (listing : List MdFile) : List MdFile :=
  listing.filter (fun f => strEnds f.filename ".md" && !strStarts f.filename "_")

/-- `parseRules` on a directory listing. -/
def parseRulesDir (render : String → String) (sections : List SectionMeta)
    (listing : List MdFile) : List RuleMeta × List String :=
  parseRulesFiles render sections (ruleCandidates listing)

/-- The `guides.push({...})` object literal of `parseGuides`. -/
def mkGuide (render : String → String) (f : MdFile) : GuideMeta :=
  { slug := slugOf f.filename
    filename := f.filename
    title := orDefaultS f.data.title (slugOf f.filename)
    description := orDefaultS f.data.description ""
    order := orDefaultI f.data.order 999
    category := orDefaultS f.data.category "general"
    difficulty := orDefaultS f.data.difficulty "beginner"
    estimatedTime := orDefaultS f.data.estimatedTime ""
    -- `data.prerequisites || []`: a JS array is always truthy, so only an
    -- absent key falls back to `[]`.
    prerequisites := f.data.prerequisites.getD []
    content := render f.body }

/-- The `concepts.push({...})` object literal of `parseConcepts`. -/
def mkConcept (render : String → String) (f : MdFile) : ConceptMeta :=
  { slug := slugOf f.filename
    filename := f.filename
    title := orDefaultS f.data.title (slugOf f.filename)
    description := orDefaultS f.data.description ""
    order := orDefaultI f.data.order 999
    category := orDefaultS f.data.category "general"
    relatedRules := f.data.relatedRules.getD []
    content := render f.body }

/-- The records built by the `parseGuides` loop, in filesystem enumeration
order (before the final sort); the candidate filter is `f.endsWith(".md")`. -/
def guideRecords (render : String → String) (listing : List MdFile) : List GuideMeta :=
  (listing.filter (fun f => strEnds f.filename ".md")).map (mkGuide render)

/-- `parseGuides`: a missing directory returns `[]` (not fatal); otherwise
the records sorted by `(a, b) => a.order - b.order`.  The second component
collects log output of the loop — the source loop contains no logging
statement, so it is empty. -/
def parseGuides (render : String → String) (dir : Option (List MdFile)) :
    List GuideMeta × List String :=
  match dir with
  | none => ([], [])
  | some listing => (jsSortBy (keyLe (fun g => g.order)) (guideRecords render listing), [])

/-- As `guideRecords`, for concepts. -/
def conceptRecords (render : String → String) (listing : List MdFile) : List ConceptMeta :=
  (listing.filter (fun f => strEnds f.filename ".md")).map (mkConcept render)

/-- `parseConcepts`, structured exactly like `parseGuides`. -/
def parseConcepts (render : String → String) (dir : Option (List MdFile)) :
    List ConceptMeta × List String :=
  match dir with
  | none => ([], [])
  | some listing => (jsSortBy (keyLe (fun c => c.order)) (conceptRecords render listing), [])

/-! ## Output generation (`generateOutput`) and the pipeline (`main`) -/

/-- The `{ slug, title }` projection used for a section's nested rules. -/
structure RuleRef where
  slug : String
  title : String
deriving Repr, DecidableEq

/-- A section as emitted into `sectionsWithRules` (`{...section, rules}`). -/
structure SectionOut where
  order : Nat
  id : String
  title : String
  impact : String
  description : String
  rules : List RuleRef
deriving Repr, DecidableEq

/-- The `guidesList` projection. -/
structure GuideListItem where
  slug : String
  title : String
  description : String
  order : Int
  category : String
  difficulty : String
  estimatedTime : String
deriving Repr, DecidableEq

/-- The `conceptsList` projection. -/
structure ConceptListItem where
  slug : String
  title : String
  description : String
  order : Int
  category : String
deriving Repr, DecidableEq

/-- The generated data module (`generated.ts`): the four serialized
collections.  Lookups keep the entry lists of `Object.fromEntries`. -/
structure Artifact where
  sections : List SectionOut
  rulesLookup : List (String × RuleMeta)
  guidesLookup : List (String × GuideMeta)
  guidesList : List GuideListItem
  conceptsLookup : List (String × ConceptMeta)
  conceptsList : List ConceptListItem
deriving Repr, DecidableEq

/-- The grouping loop of `generateOutput`: `rulesBySection.get(...) || []`,
push, `set`. -/
def buildGroups (rules : List RuleMeta) : List (String × List RuleMeta) :=
  rules.foldl (fun m r => setG m r.sectionId ((lookupG m r.sectionId).getD [] ++ [r])) []

def toRuleRef (r : RuleMeta) : RuleRef :=
  { slug := r.slug, title := r.title }

/-- One entry of `sectionsWithRules`. -/
def toSectionOut (groups : List (String × List RuleMeta)) (s : SectionMeta) : SectionOut :=
  { order := s.order, id := s.id, title := s.title, impact := s.impact
    description := s.description
    rules := ((lookupG groups s.id).getD []).map toRuleRef }

/-- `generateOutput`, as the pure value it serializes.  `titleLe a b` models
`a.localeCompare(b) <= 0` (the locale collation is environment input). -/
def generateArtifact (titleLe : String → String → Bool) (sections : List SectionMeta)
    (rules : List RuleMeta) (guides : List GuideMeta) (concepts : List ConceptMeta) :
    Artifact :=
  let groups := (buildGroups rules).map
    (fun kv => (kv.1, jsSortBy (fun a b => titleLe a.title b.title) kv.2))
  let sortedSections := jsSortBy (keyLe (fun s => (s.order : Int))) sections
  { sections := sortedSections.map (toSectionOut groups)
    rulesLookup := rules.map (fun r => (r.slug, r))
    guidesLookup := guides.map (fun g => (g.slug, g))
    guidesList := guides.map (fun g =>
      { slug := g.slug, title := g.title, description := g.description, order := g.order
        category := g.category, difficulty := g.difficulty
        estimatedTime := g.estimatedTime })
    conceptsLookup := concepts.map (fun c => (c.slug, c))
    conceptsList := concepts.map (fun c =>
      { slug := c.slug, title := c.title, description := c.description, order := c.order
        category := c.category }) }

/-- The filesystem inputs of one run.  `none` models a missing file or
directory (`readFileSync` / `readdirSync` throw, `existsSync` is false). -/
structure FS where
  sectionsFile : Option String
  rulesDir : Option (List MdFile)
  guidesDir : Option (List MdFile)
  conceptsDir : Option (List MdFile)

/-- The body of `main()`: any missing mandatory input makes the promise
reject (`Except.error`); guides/concepts directories are optional. -/
def runPipeline (titleLe : String → String → Bool) (render : String → String)
    (fs : FS) : Except String Artifact :=
  match fs.sectionsFile with
  | none => .error "ENOENT: rules/_sections.md"
  | some txt =>
    match fs.rulesDir with
    | none => .error "ENOENT: rules directory"
    | some listing =>
      let sections := parseSectionsText txt
      let rules := (parseRulesDir render sections listing).1
      let guides := (parseGuides render fs.guidesDir).1
      let concepts := (parseConcepts render fs.conceptsDir).1
      .ok (generateArtifact titleLe sections rules guides concepts)

/-- Observable outcome of the whole process. -/
structure RunResult where
  /-- The artifact written by `fs.writeFileSync`, if reached. -/
  output : Option Artifact
  /-- The Node process exit code. -/
  exitCode : Nat
  /-- Whether the top-level `catch` printed an error. -/
  errorLogged : Bool
deriving Repr, DecidableEq

/-- `main().catch(console.error)`: a rejected promise is *handled* by the
`.catch`, which only logs — the process then exits normally with code 0 and
no output file has been written. -/
def mainRun (titleLe : String → String → Bool) (render : String → String)
    (fs : FS) : RunResult :=
  match runPipeline titleLe render fs with
  | .ok art => { output := some art, exitCode := 0, errorLogged := false }
  | .error _ => { output := none, exitCode := 0, errorLogged := true }

/-! ## Lemmas about the stable sort -/

theorem jsInsert_perm {α : Type} (le : α → α → Bool) (x : α) (l : List α) :
    (jsInsert le x l).Perm (x :: l) := by
  induction l with
  | nil => simp [jsInsert]
  | cons y ys ih =>
    by_cases h : le x y
    · simp [jsInsert, h]
    · simp only [jsInsert, h, if_neg]
      exact ((ih.cons y).trans (List.Perm.swap x y ys)).symm.symm

theorem jsSortBy_perm {α : Type} (le : α → α → Bool) (l : List α) :
    (jsSortBy le l).Perm l := by
  induction l with
  | nil => simp [jsSortBy]
  | cons x xs ih =>
    exact (jsInsert_perm le x (jsSortBy le xs)).trans (ih.cons x)

theorem mem_jsInsert {α : Type} (le : α → α → Bool) (x a : α) (l : List α) :
    a ∈ jsInsert le x l ↔ a = x ∨ a ∈ l := by
  rw [(jsInsert_perm le x l).mem_iff]
  simp

theorem jsInsert_pairwise {α : Type} (le : α → α → Bool)
    (htot : ∀ a b, le a b = true ∨ le b a = true)
    (htr : ∀ a b c, le a b = true → le b c = true → le a c = true)
    (x : α) (l : List α) (hl : l.Pairwise (fun a b => le a b = true)) :
    (jsInsert le x l).Pairwise (fun a b => le a b = true) := by
  induction l with
  | nil => simp [jsInsert]
  | cons y ys ih =>
    rcases List.pairwise_cons.mp hl with ⟨hy, hys⟩
    by_cases h : le x y
    · simp only [jsInsert, h, if_pos]
      refine List.pairwise_cons.mpr ⟨?_, hl⟩
      intro z hz
      rcases List.mem_cons.mp hz with hzy | hz
      · rw [hzy]; exact h
      · exact htr x y z h (hy z hz)
    · simp only [jsInsert, h, if_neg]
      refine List.pairwise_cons.mpr ⟨?_, ih hys⟩
      intro z hz
      rcases (mem_jsInsert le x z ys).mp hz with hzx | hz
      · rw [hzx]
        rcases htot x y with hxy | hyx
        · exact absurd hxy h
        · exact hyx
      · exact hy z hz

theorem jsSortBy_pairwise {α : Type} (le : α → α → Bool)
    (htot : ∀ a b, le a b = true ∨ le b a = true)
    (htr : ∀ a b c, le a b = true → le b c = true → le a c = true)
    (l : List α) :
    (jsSortBy le l).Pairwise (fun a b => le a b = true) := by
  induction l with
  | nil => simp [jsSortBy]
  | cons x xs ih => exact jsInsert_pairwise le htot htr x _ ih

theorem keyLe_total {α : Type} (key : α → Int) (a b : α) :
    keyLe key a b = true ∨ keyLe key b a = true := by
  simp only [keyLe, decide_eq_true_eq]
  exact Int.le_total (key a) (key b)

theorem keyLe_trans {α : Type} (key : α → Int) (a b c : α)
    (h1 : keyLe key a b = true) (h2 : keyLe key b c = true) :
    keyLe key a c = true := by
  simp only [keyLe, decide_eq_true_eq] at h1 h2 ⊢
  exact le_trans h1 h2

/-- Stability of `jsInsert` for a key comparator, phrased through `filter`:
inserting `x` only adds `x` to the elements with its own key, at the front. -/
theorem jsInsert_filter_key {α : Type} (key : α → Int) (n : Int) (x : α) (l : List α) :
    (jsInsert (keyLe key) x l).filter (fun a => key a == n) =
      if key x == n then x :: l.filter (fun a => key a == n)
      else l.filter (fun a => key a == n) := by
  induction l with
  | nil =>
    by_cases hx : key x == n <;> simp [jsInsert, hx]
  | cons y ys ih =>
    by_cases h : keyLe key x y
    · by_cases hx : key x == n <;>
        simp [jsInsert, h, List.filter_cons, hx]
    · have hyx : key y < key x := by
        simp only [keyLe, decide_eq_true_eq] at h
        omega
      by_cases hx : key x == n
      · have hxn : key x = n := by simpa using hx
        have hy : (key y == n) = false := by
          simp only [beq_eq_false_iff_ne, ne_eq]
          omega
        simp [jsInsert, h, List.filter_cons, hx, hy, ih]
      · by_cases hy : key y == n <;>
          simp [jsInsert, h, List.filter_cons, hx, hy, ih]

/-- Stability of `jsSortBy` for a key comparator: the elements with any
fixed key value appear in the sorted list exactly in their input order. -/
theorem jsSortBy_filter_key {α : Type} (key : α → Int) (n : Int) (l : List α) :
    (jsSortBy (keyLe key) l).filter (fun a => key a == n) =
      l.filter (fun a => key a == n) := by
  induction l with
  | nil => rfl
  | cons x xs ih =>
    simp only [jsSortBy, jsInsert_filter_key, ih, List.filter_cons]

/-! ## Lemmas about the `Map` model and the grouping loop -/

theorem lookupG_setG {α : Type} (m : List (String × α)) (k k' : String) (v : α) :
    lookupG (setG m k v) k' = if k = k' then some v else lookupG m k' := by
  induction m with
  | nil =>
    by_cases h : k = k' <;> simp [setG, lookupG, h]
  | cons kv m ih =>
    by_cases h1 : kv.1 = k
    · rw [show setG (kv :: m) k v = (k, v) :: m by simp [setG, h1]]
      by_cases h2 : k = k'
      · simp [lookupG, h2]
      · have hkv : ¬ kv.1 = k' := by rw [h1]; exact h2
        simp [lookupG, h2, hkv]
    · rw [show setG (kv :: m) k v = kv :: setG m k v by simp [setG, h1]]
      by_cases h3 : kv.1 = k'
      · have hkk : ¬ k = k' := fun he => h1 (by rw [h3, he])
        simp [lookupG, h3, hkk]
      · simp [lookupG, h3, ih]

/-- The grouping fold, with a generalized accumulator. -/
theorem lookupG_buildGroups_aux (acc : List (String × List RuleMeta))
    (rules : List RuleMeta) (k : String) :
    (lookupG (rules.foldl
        (fun m r => setG m r.sectionId ((lookupG m r.sectionId).getD [] ++ [r])) acc) k).getD []
      = (lookupG acc k).getD [] ++ rules.filter (fun r => r.sectionId == k) := by
  induction rules generalizing acc with
  | nil => simp
  | cons r rs ih =>
    simp only [List.foldl_cons, ih, List.filter_cons]
    rw [lookupG_setG]
    by_cases h : r.sectionId = k
    · subst h
      simp
    · have : (r.sectionId == k) = false := by simpa using h
      simp [h, this]

/-- `rulesBySection.get(k) || []` is exactly the rules whose `section` is
`k`, in input order. -/
theorem lookupG_buildGroups (rules : List RuleMeta) (k : String) :
    (lookupG (buildGroups rules) k).getD [] = rules.filter (fun r => r.sectionId == k) := by
  simpa [buildGroups] using lookupG_buildGroups_aux [] rules k

/-- Looking up in a value-mapped association list. -/
theorem lookupG_mapVals {α β : Type} (f : α → β) (m : List (String × α)) (k : String) :
    lookupG (m.map (fun kv => (kv.1, f kv.2))) k = (lookupG m k).map f := by
  induction m with
  | nil => rfl
  | cons kv m ih =>
    by_cases h : kv.1 = k <;> simp [lookupG, h, ih]

/-! ## Small facts about `strStarts` needed for the link renderer -/

/-- A target starting with `/` cannot also start with `http://` or
`https://`. -/
theorem strStarts_slash_not_http (s : String) (h : strStarts s "/" = true) :
    strStarts s "http://" = false ∧ strStarts s "https://" = false := by
  obtain ⟨l⟩ := s
  simp only [strStarts] at h ⊢
  cases l with
  | nil => simp [List.isPrefixOf] at h
  | cons c t =>
    simp only [List.isPrefixOf, List.isPrefixOf_nil_left, Bool.and_true, beq_iff_eq] at h
    subst h
    constructor <;> simp [List.isPrefixOf]

/-- A target starting with `//` also starts with `/`, and cannot start with
`http://` or `https://`. -/
theorem strStarts_dslash (s : String) (h : strStarts s "//" = true) :
    strStarts s "/" = true ∧ strStarts s "http://" = false
      ∧ strStarts s "https://" = false := by
  obtain ⟨l⟩ := s
  have hs : strStarts (String.mk l) "/" = true := by
    simp only [strStarts] at h ⊢
    cases l with
    | nil => simp [List.isPrefixOf] at h
    | cons c t =>
      simp only [List.isPrefixOf, beq_iff_eq, Bool.and_eq_true] at h
      obtain ⟨hc, _⟩ := h
      subst hc
      simp [List.isPrefixOf]
  exact ⟨hs, strStarts_slash_not_http (String.mk l) hs⟩

/-- A target starting with `http://` or `https://` does not start with
`/`. -/
theorem strStarts_http_not_slash (s : String)
    (h : strStarts s "http://" = true ∨ strStarts s "https://" = true) :
    strStarts s "/" = false := by
  obtain ⟨l⟩ := s
  have h1 : "/".data = ['/'] := rfl
  have h2 : "http://".data = ['h', 't', 't', 'p', ':', '/', '/'] := rfl
  have h3 : "https://".data = ['h', 't', 't', 'p', 's', ':', '/', '/'] := rfl
  simp only [strStarts, h1, h2, h3] at h ⊢
  cases l with
  | nil => rcases h with h | h <;> simp [List.isPrefixOf] at h
  | cons c t =>
    have hc : c = 'h' := by
      rcases h with h | h <;>
        · simp only [List.isPrefixOf, beq_iff_eq, Bool.and_eq_true] at h
          exact h.1.symm
    simp [List.isPrefixOf, hc]

/-! ## Claim C3: code-block rendering fallback -/

/-- C3: for every code block, rendering never escapes the per-block
renderer: when the alias-resolved language is not among the highlighter's
loaded languages the block is highlighted as `plaintext` inside a container
labelled with the original (unmapped) language; when the highlighting call
itself fails the result is the HTML-escaped `<pre><code>` block; and in all
cases the result is one of those two forms. -/
theorem renderCode_fallback (loaded : List String)
    (codeToHtml : String → String → Except String String) (lang : Option String)
    (text : String) :
    (loaded.contains (resolvedLang lang) = false →
      renderCode loaded codeToHtml lang text =
        match codeToHtml "plaintext" text with
        | .ok h => codeContainer (codeLabel lang) h
        | .error _ => escapedPre (codeLabel lang) text)
  ∧ (∀ e, codeToHtml (chosenLang loaded lang) text = .error e →
      renderCode loaded codeToHtml lang text = escapedPre (codeLabel lang) text)
  ∧ ((∃ h, renderCode loaded codeToHtml lang text = codeContainer (codeLabel lang) h)
      ∨ renderCode loaded codeToHtml lang text = escapedPre (codeLabel lang) text) := by
  refine ⟨?_, ?_, ?_⟩
  · intro hun
    have hmem : resolvedLang lang ∉ loaded := by simpa using hun
    simp [renderCode, chosenLang, hun, hmem]
  · intro e he
    simp [renderCode, he]
  · cases hc : codeToHtml (chosenLang loaded lang) text with
    | ok h => exact Or.inl ⟨h, by simp [renderCode, hc]⟩
    | error e => exact Or.inr (by simp [renderCode, hc])

/-- C3 witness: an unsupported language `cobol` with the script's loaded
language set renders as a plaintext-highlighted container labelled
`cobol`. -/
theorem renderCode_fallback_witness :
    renderCode ["typescript", "javascript", "bash", "json", "yaml", "sql", "html", "css",
        "plaintext"]
      (fun l t => .ok ("[" ++ l ++ "]" ++ t)) (some "cobol") "MOVE A TO B" =
      codeContainer "cobol" "[plaintext]MOVE A TO B" :=
  ((renderCode_fallback ["typescript", "javascript", "bash", "json", "yaml", "sql", "html",
      "css", "plaintext"]
    (fun l t => .ok ("[" ++ l ++ "]" ++ t)) (some "cobol") "MOVE A TO B").1
    (by decide)).trans (by rfl)

/-! ## Claim C4: link rewriting -/

/-- C4: a link target starting with a single `/` gets the base path
prefixed; one starting with `//` is emitted unchanged with no prefix; one
starting with `http://` or `https://` is emitted unchanged plus
`target="_blank" rel="noopener noreferrer"`. -/
theorem renderLink_rewrite (basePath : String) (href : String) (title : Option String)
    (text : String) :
    (strStarts href "/" = true → strStarts href "//" = false →
      renderLink basePath (some href) title text =
        "<a href=\"" ++ (basePath ++ href) ++ "\"" ++ titleAttr title ++ ">" ++ text ++ "</a>")
  ∧ (strStarts href "//" = true →
      renderLink basePath (some href) title text =
        "<a href=\"" ++ href ++ "\"" ++ titleAttr title ++ ">" ++ text ++ "</a>")
  ∧ ((strStarts href "http://" = true ∨ strStarts href "https://" = true) →
      renderLink basePath (some href) title text =
        "<a href=\"" ++ href ++ "\"" ++ titleAttr title ++
          " target=\"_blank\" rel=\"noopener noreferrer\">" ++ text ++ "</a>") := by
  refine ⟨?_, ?_, ?_⟩
  · intro h1 h2
    obtain ⟨hh1, hh2⟩ := strStarts_slash_not_http href h1
    simp [renderLink, h1, h2, hh1, hh2]
  · intro h2
    obtain ⟨h1, hh1, hh2⟩ := strStarts_dslash href h2
    simp [renderLink, h1, h2, hh1, hh2]
  · intro hh
    have h1 := strStarts_http_not_slash href hh
    rcases hh with hh | hh <;> simp [renderLink, h1, hh]

/-- C4 witness: the three example targets of the specification. -/
theorem renderLink_rewrite_witness :
    renderLink BASE_PATH (some "/rules/foo") none "x" =
      "<a href=\"/agent-nestjs-skills/rules/foo\">x</a>"
  ∧ renderLink BASE_PATH (some "https://example.com") none "x" =
      "<a href=\"https://example.com\" target=\"_blank\" rel=\"noopener noreferrer\">x</a>"
  ∧ renderLink BASE_PATH (some "//cdn.example.com/x") none "x" =
      "<a href=\"//cdn.example.com/x\">x</a>" :=
  ⟨((renderLink_rewrite BASE_PATH "/rules/foo" none "x").1 (by decide) (by decide)).trans
      (by decide),
    ((renderLink_rewrite BASE_PATH "https://example.com" none "x").2.2
      (Or.inr (by decide))).trans (by decide),
    ((renderLink_rewrite BASE_PATH "//cdn.example.com/x" none "x").2.1 (by decide)).trans
      (by decide)⟩

/-! ## Claim C10: title defaulting to the slug -/

/-- C10: for a rule, guide or concept file whose front matter has no
`title` (or an empty one), the record's title is the slug derived from the
filename. -/
theorem title_default_spec (render : String → String) (s : SectionMeta) (f : MdFile)
    (h : f.data.title = none ∨ f.data.title = some "") :
    (mkRule render s f).title = slugOf f.filename
  ∧ (mkGuide render f).title = slugOf f.filename
  ∧ (mkConcept render f).title = slugOf f.filename := by
  rcases h with h | h <;> simp [mkRule, mkGuide, mkConcept, orDefaultS, h]

/-- C10 witness: a file with absent title gets the `.md`-stripped filename
as title. -/
theorem title_default_spec_witness :
    (mkGuide (fun b => b) { filename := "arch-avoid-cycles.md" }).title
      = "arch-avoid-cycles" :=
  ((title_default_spec (fun b => b)
      { order := 1, id := "arch", title := "", impact := "", description := "" }
      { filename := "arch-avoid-cycles.md" } (Or.inl rfl)).2.1).trans (by decide)

/-! ## Claim C9: rule tags (corrected) -/

/-- C9 counterexample: a rule file whose front matter contains the (empty)
tags value `""` yields `tags = []`, while splitting `""` on `,` and trimming
yields `[""]` — so "split the value whenever a tags value is present" fails
at this input. -/
theorem tags_empty_cex :
    ({ filename := "arch-x.md", data := { tags := some "" } } : MdFile).data.tags = some ""
  ∧ (mkRule (fun b => b)
      { order := 1, id := "arch", title := "A", impact := "", description := "" }
      { filename := "arch-x.md", data := { tags := some "" } }).tags = []
  ∧ (jsSplit "" ',').map jsTrim = [""]
  ∧ (mkRule (fun b => b)
      { order := 1, id := "arch", title := "A", impact := "", description := "" }
      { filename := "arch-x.md", data := { tags := some "" } }).tags
      ≠ (jsSplit "" ',').map jsTrim := by
  refine ⟨rfl, rfl, by decide, by decide⟩

/-- C9 amended: for a rule file whose front matter contains a *non-empty*
`tags` value, the tags field is that value split on `,` with each piece
trimmed (duplicates kept); when the key is absent *or its value is empty*,
the tags field is the empty list. -/
theorem tags_split_spec (render : String → String) (s : SectionMeta) (f : MdFile) :
    (∀ tv, f.data.tags = some tv → tv ≠ "" →
      (mkRule render s f).tags = (jsSplit tv ',').map jsTrim)
  ∧ ((f.data.tags = none ∨ f.data.tags = some "") → (mkRule render s f).tags = []) := by
  constructor
  · intro tv htv hne
    simp [mkRule, tagsOf, htv, hne]
  · rintro (h | h) <;> simp [mkRule, tagsOf, h]

/-- C9 witness: a tags value with spaces and a duplicate splits into the
trimmed duplicate-keeping list. -/
theorem tags_split_spec_witness :
    (mkRule (fun b => b)
      { order := 1, id := "arch", title := "A", impact := "", description := "" }
      { filename := "arch-y.md", data := { tags := some "arch, di ,arch" } }).tags
      = ["arch", "di", "arch"] :=
  ((tags_split_spec (fun b => b)
      { order := 1, id := "arch", title := "A", impact := "", description := "" }
      { filename := "arch-y.md", data := { tags := some "arch, di ,arch" } }).1
    "arch, di ,arch" rfl (by decide)).trans (by decide)

/-! ## Claim C8: order defaulting (corrected) -/

/-- C8 counterexample: a guide file whose front matter contains `order: 0`
gets `order = 999`, not the given integer — `data.order || 999` treats `0`
as falsy. -/
theorem order_zero_cex :
    ({ filename := "a.md", data := { order := some 0 } } : MdFile).data.order = some 0
  ∧ (mkGuide (fun b => b) { filename := "a.md", data := { order := some 0 } }).order = 999
  ∧ (mkConcept (fun b => b) { filename := "a.md", data := { order := some 0 } }).order = 999
  ∧ (mkGuide (fun b => b) { filename := "a.md", data := { order := some 0 } }).order ≠ 0 := by
  refine ⟨rfl, rfl, rfl, by decide⟩

/-- C8 amended: a guide or concept record's `order` equals the front-matter
integer when that key is present *with a non-zero value*, and 999 when the
key is absent *or zero*; the defaulting produces no log output (the
guide/concept parsing loops log nothing). -/
theorem order_default_spec (render : String → String) (f : MdFile) :
    (∀ n : Int, f.data.order = some n → n ≠ 0 →
      (mkGuide render f).order = n ∧ (mkConcept render f).order = n)
  ∧ ((f.data.order = none ∨ f.data.order = some 0) →
      (mkGuide render f).order = 999 ∧ (mkConcept render f).order = 999)
  ∧ (parseGuides render (some [f])).2 = [] ∧ (parseConcepts render (some [f])).2 = [] := by
  refine ⟨?_, ?_, rfl, rfl⟩
  · intro n hn hne
    constructor <;> simp [mkGuide, mkConcept, orDefaultI, hn, hne]
  · rintro (h | h) <;> constructor <;> simp [mkGuide, mkConcept, orDefaultI, h]

/-- C8 witness: a present non-zero order is kept; an absent one becomes
999. -/
theorem order_default_spec_witness :
    (mkGuide (fun b => b) { filename := "g.md", data := { order := some 7 } }).order = 7
  ∧ (mkGuide (fun b => b) { filename := "h.md" }).order = 999 :=
  ⟨((order_default_spec (fun b => b) { filename := "g.md", data := { order := some 7 } }).1
      7 rfl (by decide)).1,
    ((order_default_spec (fun b => b) { filename := "h.md" }).2.1 (Or.inl rfl)).1⟩

/-! ## Characterization of the rule-parsing loop (for C2) -/

/-- The rules returned by the loop are exactly the files whose section
lookup hits, each mapped through the record constructor. -/
theorem parseRulesFiles_rules_eq (render : String → String) (sections : List SectionMeta)
    (files : List MdFile) :
    (parseRulesFiles render sections files).1 =
      files.filterMap (fun f =>
        (sections.find? (fun s => s.id == sectionKeyOf f.filename)).map
          (fun s => mkRule render s f)) := by
  induction files with
  | nil => rfl
  | cons f fs ih =>
    simp only [parseRulesFiles, List.filterMap_cons]
    cases h : sections.find? (fun s => s.id == sectionKeyOf f.filename) <;> simp [h, ih]

/-- The warnings returned by the loop are exactly the files whose section
lookup misses. -/
theorem parseRulesFiles_warns_eq (render : String → String) (sections : List SectionMeta)
    (files : List MdFile) :
    (parseRulesFiles render sections files).2 =
      (files.filter (fun f =>
        (sections.find? (fun s => s.id == sectionKeyOf f.filename)).isNone)).map
        (fun f => warnMsg f.filename) := by
  induction files with
  | nil => rfl
  | cons f fs ih =>
    simp only [parseRulesFiles, List.filter_cons]
    cases h : sections.find? (fun s => s.id == sectionKeyOf f.filename) <;> simp [h, ih]

theorem length_filterMap_isSome {α β : Type} (g : α → Option β) (l : List α) :
    (l.filterMap g).length = (l.filter (fun a => (g a).isSome)).length := by
  induction l with
  | nil => rfl
  | cons x xs ih =>
    cases h : g x <;> simp [List.filterMap_cons, List.filter_cons, h, ih]

theorem length_filter_add_not {α : Type} (p : α → Bool) (l : List α) :
    (l.filter p).length + (l.filter (fun a => !(p a))).length = l.length := by
  induction l with
  | nil => rfl
  | cons x xs ih =>
    by_cases h : p x <;> simp [List.filter_cons, h] <;> omega

/-! ## Claim C2: section matching for rules -/

/-- C2: a candidate rule file whose filename part before the first `-`
equals the id of some parsed section yields a rule record with `section`
equal to that key; a candidate file whose key matches no section yields a
logged warning and no rule record; and the number of rule records is the
number of candidate files minus the unmatched ones. -/
theorem parseRules_spec (render : String → String) (sections : List SectionMeta)
    (listing : List MdFile) :
    (∀ f ∈ ruleCandidates listing,
      (∃ s ∈ sections, s.id = sectionKeyOf f.filename) →
        ∃ r ∈ (parseRulesDir render sections listing).1,
          r.filename = f.filename ∧ r.sectionId = sectionKeyOf f.filename)
  ∧ (∀ f ∈ ruleCandidates listing,
      (∀ s ∈ sections, s.id ≠ sectionKeyOf f.filename) →
        warnMsg f.filename ∈ (parseRulesDir render sections listing).2
        ∧ ∀ r ∈ (parseRulesDir render sections listing).1, r.filename ≠ f.filename)
  ∧ (parseRulesDir render sections listing).1.length
      = (ruleCandidates listing).length
        - ((ruleCandidates listing).filter (fun f =>
            (sections.find? (fun s => s.id == sectionKeyOf f.filename)).isNone)).length := by
  refine ⟨?_, ?_, ?_⟩
  · intro f hf ⟨s, hs, hid⟩
    have hsome : (sections.find? (fun s => s.id == sectionKeyOf f.filename)).isSome :=
      List.find?_isSome.mpr ⟨s, hs, by simp [hid]⟩
    obtain ⟨s', hs'⟩ := Option.isSome_iff_exists.mp hsome
    have hid' : s'.id = sectionKeyOf f.filename := by
      simpa using List.find?_some hs'
    refine ⟨mkRule render s' f, ?_, rfl, hid'⟩
    rw [parseRulesDir, parseRulesFiles_rules_eq]
    exact List.mem_filterMap.mpr ⟨f, hf, by rw [hs']; rfl⟩
  · intro f hf hmiss
    have hnone : sections.find? (fun s => s.id == sectionKeyOf f.filename) = none :=
      List.find?_eq_none.mpr (fun s hs => by simpa using hmiss s hs)
    constructor
    · rw [parseRulesDir, parseRulesFiles_warns_eq]
      exact List.mem_map.mpr ⟨f, List.mem_filter.mpr ⟨hf, by simp [hnone]⟩, rfl⟩
    · intro r hr hrf
      rw [parseRulesDir, parseRulesFiles_rules_eq] at hr
      obtain ⟨g, _, hgr⟩ := List.mem_filterMap.mp hr
      cases hfind : sections.find? (fun s => s.id == sectionKeyOf g.filename) with
      | none => rw [hfind] at hgr; exact Option.noConfusion hgr
      | some sg =>
        rw [hfind] at hgr
        have hrg : r = mkRule render sg g := by simpa using hgr.symm
        have hfe : g.filename = f.filename := by rw [hrg] at hrf; exact hrf
        rw [hfe] at hfind
        rw [hnone] at hfind
        exact Option.noConfusion hfind
  · rw [parseRulesDir, parseRulesFiles_rules_eq, length_filterMap_isSome]
    have hc := length_filter_add_not
      (fun f => (sections.find? (fun s => s.id == sectionKeyOf f.filename)).isNone)
      (ruleCandidates listing)
    have he : (ruleCandidates listing).filter (fun f =>
          !(sections.find? (fun s => s.id == sectionKeyOf f.filename)).isNone)
        = (ruleCandidates listing).filter (fun f =>
          ((sections.find? (fun s => s.id == sectionKeyOf f.filename)).map
            (fun s => mkRule render s f)).isSome) := by
      refine List.filter_congr ?_
      intro f _
      cases sections.find? (fun s => s.id == sectionKeyOf f.filename) <;> rfl
    rw [← he]
    omega

/-- C2 witness: with one section `arch`, the listing
`[arch-avoid-cycles.md, zzz-x.md, _sections.md]` yields one rule and one
warning for the unmatched file. -/
theorem parseRules_spec_witness :
    warnMsg "zzz-x.md" ∈ (parseRulesDir (fun b => b)
      [{ order := 1, id := "arch", title := "Architecture", impact := "CRITICAL",
         description := "" }]
      [{ filename := "arch-avoid-cycles.md" }, { filename := "zzz-x.md" },
       { filename := "_sections.md" }]).2
  ∧ (parseRulesDir (fun b => b)
      [{ order := 1, id := "arch", title := "Architecture", impact := "CRITICAL",
         description := "" }]
      [{ filename := "arch-avoid-cycles.md" }, { filename := "zzz-x.md" },
       { filename := "_sections.md" }]).1.length = 1 :=
  ⟨((parseRules_spec (fun b => b)
      [{ order := 1, id := "arch", title := "Architecture", impact := "CRITICAL",
         description := "" }]
      [{ filename := "arch-avoid-cycles.md" }, { filename := "zzz-x.md" },
       { filename := "_sections.md" }]).2.1
      { filename := "zzz-x.md" } (by decide) (by decide)).1,
    ((parseRules_spec (fun b => b)
      [{ order := 1, id := "arch", title := "Architecture", impact := "CRITICAL",
         description := "" }]
      [{ filename := "arch-avoid-cycles.md" }, { filename := "zzz-x.md" },
       { filename := "_sections.md" }]).2.2).trans (by decide)⟩

/-! ## Claim C7: guide/concept lists are stably sorted by order -/

/-- C7: the parsed guide and concept lists are sorted by `order` ascending,
and elements sharing an `order` value keep their original file enumeration
order (stable sort), stated through the filter characterization: for every
order value, the sorted list restricted to that value equals the
enumeration-order record list restricted to it. -/
theorem guides_concepts_sorted (render : String → String)
    (listing listing2 : List MdFile) :
    ((parseGuides render (some listing)).1.Pairwise (fun a b => a.order ≤ b.order)
  ∧ ∀ n : Int, (parseGuides render (some listing)).1.filter (fun g => g.order == n)
      = (guideRecords render listing).filter (fun g => g.order == n))
  ∧ ((parseConcepts render (some listing2)).1.Pairwise (fun a b => a.order ≤ b.order)
  ∧ ∀ n : Int, (parseConcepts render (some listing2)).1.filter (fun c => c.order == n)
      = (conceptRecords render listing2).filter (fun c => c.order == n)) := by
  refine ⟨⟨?_, ?_⟩, ?_, ?_⟩
  · simp only [parseGuides]
    refine (jsSortBy_pairwise (keyLe (fun g : GuideMeta => g.order))
      (keyLe_total _) (keyLe_trans _) (guideRecords render listing)).imp ?_
    intro a b h
    simpa [keyLe] using h
  · intro n
    simp only [parseGuides]
    exact jsSortBy_filter_key (fun g : GuideMeta => g.order) n _
  · simp only [parseConcepts]
    refine (jsSortBy_pairwise (keyLe (fun c : ConceptMeta => c.order))
      (keyLe_total _) (keyLe_trans _) (conceptRecords render listing2)).imp ?_
    intro a b h
    simpa [keyLe] using h
  · intro n
    simp only [parseConcepts]
    exact jsSortBy_filter_key (fun c : ConceptMeta => c.order) n _

/-! ## Lemmas about the section-index parser (for C6) -/

/-- The identifying data of a parsed section: ordinal, title, id. -/
def secKey (s : SectionMeta) : Nat × String × String :=
  (s.order, s.title, s.id)

def hdrKey (h : HeaderInfo) : Nat × String × String :=
  (h.order, h.title, h.id)

/-- A successful heading match always captures a nonempty id (`\w+`). -/
theorem matchHeader_id_ne {l : String} {h : HeaderInfo} (hm : matchHeader l = some h) :
    h.id ≠ "" := by
  simp only [matchHeader] at hm
  repeat' split at hm
  all_goals simp_all
  subst hm
  assumption

theorem flushSec_key_impact (s : SectionMeta) (v : String) :
    (flushSec (some { s with impact := v })).map secKey
      = (flushSec (some s)).map secKey := by
  simp only [flushSec]
  by_cases h : s.id = "" <;> simp [h, secKey]

theorem flushSec_key_description (s : SectionMeta) (v : String) :
    (flushSec (some { s with description := v })).map secKey
      = (flushSec (some s)).map secKey := by
  simp only [flushSec]
  by_cases h : s.id = "" <;> simp [h, secKey]

/-- The loop emits exactly the headings that match, in order of appearance,
with order/title/id taken from the heading. -/
theorem sectionsLoop_key (lines : List String) (cur : Option SectionMeta) :
    (sectionsLoop cur lines).map secKey
      = (flushSec cur).map secKey ++ (lines.filterMap matchHeader).map hdrKey := by
  induction lines generalizing cur with
  | nil => simp [sectionsLoop]
  | cons l ls ih =>
    cases hm : matchHeader l with
    | some h =>
      have hflush : flushSec (some (sectionOfHeader h)) = [sectionOfHeader h] := by
        simp [flushSec, sectionOfHeader, matchHeader_id_ne hm]
      simp only [sectionsLoop, hm, List.filterMap_cons, List.map_append, List.map_cons,
        ih (some (sectionOfHeader h)), hflush]
      simp [secKey, hdrKey, sectionOfHeader]
    | none =>
      cases cur with
      | none =>
        simpa [sectionsLoop, hm, flushSec] using ih none
      | some s =>
        cases hi : matchImpact l with
        | some v =>
          simp only [sectionsLoop, hm, hi, List.filterMap_cons,
            ih (some { s with impact := v }), flushSec_key_impact]
        | none =>
          cases hd : matchDescription l with
          | some v =>
            simp only [sectionsLoop, hm, hi, hd, List.filterMap_cons,
              ih (some { s with description := v }), flushSec_key_description]
          | none =>
            simp only [sectionsLoop, hm, hi, hd, List.filterMap_cons, ih (some s)]

/-- Lines before the first heading never affect the result (the field
matches are only consulted when `currentSection` exists). -/
theorem parseSections_drop_prelude (pre lines : List String)
    (hpre : ∀ l ∈ pre, matchHeader l = none) :
    parseSections (pre ++ lines) = parseSections lines := by
  induction pre with
  | nil => rfl
  | cons p ps ih =>
    have hp : matchHeader p = none := hpre p (List.mem_cons_self p ps)
    simp only [parseSections, List.cons_append, sectionsLoop, hp]
    exact ih (fun l hl => hpre l (List.mem_cons_of_mem p hl))

theorem applyField_id (s : SectionMeta) (l : String) : (applyField s l).id = s.id := by
  simp only [applyField]
  cases matchImpact l with
  | some v => rfl
  | none =>
    cases matchDescription l with
    | some v => rfl
    | none => rfl

theorem foldl_applyField_id (body : List String) :
    ∀ s : SectionMeta, (body.foldl applyField s).id = s.id := by
  induction body with
  | nil => intro s; rfl
  | cons l ls ih =>
    intro s
    simp only [List.foldl_cons]
    rw [ih, applyField_id]

theorem emitSection_id (hb : HeaderInfo × List String) :
    (emitSection hb).id = hb.1.id := by
  simp [emitSection, foldl_applyField_id, sectionOfHeader]

/-- A non-heading line advances the loop exactly by `applyField`. -/
theorem sectionsLoop_cons_noheader (s : SectionMeta) (l : String) (ls : List String)
    (hm : matchHeader l = none) :
    sectionsLoop (some s) (l :: ls) = sectionsLoop (some (applyField s l)) ls := by
  simp only [sectionsLoop, hm, applyField]
  cases hi : matchImpact l with
  | some v => rfl
  | none =>
    cases hd : matchDescription l with
    | some v => rfl
    | none => rfl

/-- The segmentation, elaborated per segment, replays the source loop. -/
theorem segmentsLoop_emit (lines : List String) :
    ∀ (h : HeaderInfo) (body : List String), h.id ≠ "" →
      (segmentsLoop (some (h, body)) lines).map emitSection
        = sectionsLoop (some (emitSection (h, body))) lines := by
  induction lines with
  | nil =>
    intro h body hne
    have hid : (emitSection (h, body)).id = h.id := emitSection_id (h, body)
    simp [segmentsLoop, sectionsLoop, flushSec, hid, hne]
  | cons l ls ih =>
    intro h body hne
    cases hm : matchHeader l with
    | some h' =>
      have hne' : h'.id ≠ "" := matchHeader_id_ne hm
      have hid : (emitSection (h, body)).id = h.id := emitSection_id (h, body)
      simp only [segmentsLoop, sectionsLoop, hm, List.map_append, List.map_cons,
        List.map_nil, ih h' [] hne']
      simp only [flushSec, emitSection]
      have hfold : ¬ (List.foldl applyField (sectionOfHeader h) body).id = "" := by
        rw [show (List.foldl applyField (sectionOfHeader h) body).id = h.id from hid]
        exact hne
      rw [if_neg hfold]
      simp
    | none =>
      rw [show segmentsLoop (some (h, body)) (l :: ls)
            = segmentsLoop (some (h, body ++ [l])) ls by simp [segmentsLoop, hm]]
      rw [ih h (body ++ [l]) hne]
      rw [sectionsLoop_cons_noheader _ l ls hm]
      congr 1
      simp [emitSection, List.foldl_append]

/-- `parseSections` is exactly the per-segment elaboration: the control
file's sections correspond one-to-one, in order, to the matching headings,
each carrying only what its own body lines set. -/
theorem parseSections_eq_segments (lines : List String) :
    parseSections lines = (segments lines).map emitSection := by
  induction lines with
  | nil => rfl
  | cons l ls ih =>
    cases hm : matchHeader l with
    | some h =>
      simp only [parseSections, sectionsLoop, segments, segmentsLoop, hm, flushSec,
        List.nil_append, List.map_cons]
      exact (segmentsLoop_emit ls h [] (matchHeader_id_ne hm)).symm
    | none =>
      simpa [parseSections, sectionsLoop, segments, segmentsLoop, hm] using ih

/-- A body with no `Impact:` line never changes the impact field. -/
theorem foldl_applyField_impact (body : List String) :
    ∀ s : SectionMeta, (∀ l ∈ body, matchImpact l = none) →
      (body.foldl applyField s).impact = s.impact := by
  induction body with
  | nil => intro s _; rfl
  | cons l ls ih =>
    intro s hb
    have hl : matchImpact l = none := hb l (List.mem_cons_self l ls)
    have hls : ∀ x ∈ ls, matchImpact x = none :=
      fun x hx => hb x (List.mem_cons_of_mem l hx)
    simp only [List.foldl_cons]
    rw [ih _ hls]
    simp only [applyField, hl]
    cases matchDescription l <;> rfl

/-- A body with no `Description:` line never changes the description
field. -/
theorem foldl_applyField_description (body : List String) :
    ∀ s : SectionMeta, (∀ l ∈ body, matchDescription l = none) →
      (body.foldl applyField s).description = s.description := by
  induction body with
  | nil => intro s _; rfl
  | cons l ls ih =>
    intro s hb
    have hl : matchDescription l = none := hb l (List.mem_cons_self l ls)
    have hls : ∀ x ∈ ls, matchDescription x = none :=
      fun x hx => hb x (List.mem_cons_of_mem l hx)
    simp only [List.foldl_cons]
    rw [ih _ hls]
    simp only [applyField, hl]
    cases matchImpact l <;> rfl

/-! ## Claim C6: section index parsing -/

/-- C6: `parseSections` yields sections in order of appearance, with each
section's `order` taken from the ordinal in its heading (first conjunct:
the emitted (order, title, id) triples are exactly those of the matching
heading lines, in order; a heading with no `(id)` token matches nothing and
contributes no section); `Impact:`/`Description:` lines before the first
heading are ignored (second conjunct: such a prelude can be dropped); the
parsed sections are exactly the per-segment elaborations — each section is
built from its own heading and body lines only (third conjunct); and, per
section, a segment whose body contains no `Impact:` (resp. `Description:`)
line yields the empty string for that field, whatever the other sections'
bodies contain (fourth conjunct). -/
theorem parseSections_spec (lines pre : List String)
    (hpre : ∀ l ∈ pre, matchHeader l = none) :
    (parseSections lines).map secKey = (lines.filterMap matchHeader).map hdrKey
  ∧ parseSections (pre ++ lines) = parseSections lines
  ∧ parseSections lines = (segments lines).map emitSection
  ∧ ∀ hb ∈ segments lines,
      ((∀ l ∈ hb.2, matchImpact l = none) → (emitSection hb).impact = "")
    ∧ ((∀ l ∈ hb.2, matchDescription l = none) → (emitSection hb).description = "") := by
  refine ⟨?_, parseSections_drop_prelude pre lines hpre,
    parseSections_eq_segments lines, ?_⟩
  · simpa [flushSec] using sectionsLoop_key lines none
  · intro hb _
    constructor
    · intro hni
      have h1 : (emitSection hb).impact = (sectionOfHeader hb.1).impact :=
        foldl_applyField_impact hb.2 _ hni
      simpa [sectionOfHeader] using h1
    · intro hnd
      have h1 : (emitSection hb).description = (sectionOfHeader hb.1).description :=
        foldl_applyField_description hb.2 _ hnd
      simpa [sectionOfHeader] using h1

/-- C6 witness: headings with ordinals 3 and 7 (different from their list
positions), a skipped no-id heading inside the second body, an ignored
prelude field line, and a mixed file — the first section has an `Impact:`
line, the second does not and still gets the empty impact (no carry-over),
per the fourth conjunct applied to the second segment. -/
theorem parseSections_spec_witness :
    (parseSections ["## 3. Bar (bar)", "**Impact:** HIGH", "## 7. Foo (foo)",
        "**Description:** D", "## 9. NoId"]).map secKey
      = [(3, "Bar", "bar"), (7, "Foo", "foo")]
  ∧ parseSections (["**Impact:** X"] ++ ["## 3. Bar (bar)", "**Impact:** HIGH",
        "## 7. Foo (foo)", "**Description:** D", "## 9. NoId"])
      = parseSections ["## 3. Bar (bar)", "**Impact:** HIGH", "## 7. Foo (foo)",
        "**Description:** D", "## 9. NoId"]
  ∧ (emitSection ({ order := 7, title := "Foo", id := "foo" },
        ["**Description:** D", "## 9. NoId"])).impact = ""
  ∧ parseSections ["## 3. Bar (bar)", "**Impact:** HIGH", "## 7. Foo (foo)",
        "**Description:** D", "## 9. NoId"]
      = [{ order := 3, id := "bar", title := "Bar", impact := "HIGH", description := "" },
         { order := 7, id := "foo", title := "Foo", impact := "", description := "D" }] :=
  ⟨((parseSections_spec ["## 3. Bar (bar)", "**Impact:** HIGH", "## 7. Foo (foo)",
        "**Description:** D", "## 9. NoId"] ["**Impact:** X"] (by decide)).1).trans
      (by decide),
    (parseSections_spec ["## 3. Bar (bar)", "**Impact:** HIGH", "## 7. Foo (foo)",
        "**Description:** D", "## 9. NoId"] ["**Impact:** X"] (by decide)).2.1,
    ((parseSections_spec ["## 3. Bar (bar)", "**Impact:** HIGH", "## 7. Foo (foo)",
        "**Description:** D", "## 9. NoId"] ["**Impact:** X"] (by decide)).2.2.2
      ({ order := 7, title := "Foo", id := "foo" }, ["**Description:** D", "## 9. NoId"])
      (by decide)).1 (by decide),
    ((parseSections_spec ["## 3. Bar (bar)", "**Impact:** HIGH", "## 7. Foo (foo)",
        "**Description:** D", "## 9. NoId"] ["**Impact:** X"] (by decide)).2.2.1).trans
      (by decide)⟩

/-! ## Claim C5: sections with nested, sorted rules -/

/-- The rules attached to key `k` after grouping and per-group sorting are
exactly the stable title-sort of the rules whose `section` is `k`. -/
theorem groups_lookup (titleLe : String → String → Bool) (rules : List RuleMeta)
    (k : String) :
    (lookupG ((buildGroups rules).map
        (fun kv => (kv.1, jsSortBy (fun a b => titleLe a.title b.title) kv.2))) k).getD []
      = jsSortBy (fun a b => titleLe a.title b.title)
          (rules.filter (fun r => r.sectionId == k)) := by
  rw [lookupG_mapVals]
  have hbase := lookupG_buildGroups rules k
  cases h : lookupG (buildGroups rules) k with
  | none =>
    rw [h] at hbase
    simp only [Option.getD_none] at hbase
    simp [← hbase, jsSortBy]
  | some g =>
    rw [h] at hbase
    simp only [Option.getD_some] at hbase
    simp [hbase]

/-- C5: in the emitted sections collection (ascending `order`), each
section's nested rules are exactly the projections of the rule records
whose `section` equals that section's id, sorted by title ascending under
the comparator; every parsed section is present (ids are a permutation), so
a section with no matching rules appears with an empty list. -/
theorem generateOutput_sections (titleLe : String → String → Bool)
    (htot : ∀ a b, titleLe a b = true ∨ titleLe b a = true)
    (htr : ∀ a b c, titleLe a b = true → titleLe b c = true → titleLe a c = true)
    (sections : List SectionMeta) (rules : List RuleMeta)
    (guides : List GuideMeta) (concepts : List ConceptMeta) :
    ((generateArtifact titleLe sections rules guides concepts).sections.Pairwise
        (fun a b => a.order ≤ b.order))
  ∧ ((generateArtifact titleLe sections rules guides concepts).sections.map
        (fun so => so.id)).Perm (sections.map (fun s => s.id))
  ∧ ∀ so ∈ (generateArtifact titleLe sections rules guides concepts).sections,
      so.rules.Perm ((rules.filter (fun r => r.sectionId == so.id)).map toRuleRef)
    ∧ so.rules.Pairwise (fun a b => titleLe a.title b.title = true) := by
  have hsec : (generateArtifact titleLe sections rules guides concepts).sections
      = (jsSortBy (keyLe (fun s => (s.order : Int))) sections).map
          (toSectionOut ((buildGroups rules).map
            (fun kv => (kv.1, jsSortBy (fun a b => titleLe a.title b.title) kv.2)))) := rfl
  refine ⟨?_, ?_, ?_⟩
  · rw [hsec]
    refine List.Pairwise.map _ ?_
      (jsSortBy_pairwise (keyLe (fun s : SectionMeta => (s.order : Int)))
        (keyLe_total _) (keyLe_trans _) sections)
    intro a b hab
    simp only [keyLe, decide_eq_true_eq] at hab
    simpa [toSectionOut] using hab
  · rw [hsec, List.map_map]
    have : ((fun so : SectionOut => so.id) ∘ toSectionOut ((buildGroups rules).map
        (fun kv => (kv.1, jsSortBy (fun a b => titleLe a.title b.title) kv.2))))
        = fun s : SectionMeta => s.id := rfl
    rw [this]
    exact (jsSortBy_perm (keyLe (fun s : SectionMeta => (s.order : Int))) sections).map _
  · intro so hso
    rw [hsec] at hso
    obtain ⟨s, _, rfl⟩ := List.mem_map.mp hso
    have hrules : (toSectionOut ((buildGroups rules).map
        (fun kv => (kv.1, jsSortBy (fun a b => titleLe a.title b.title) kv.2))) s).rules
        = (jsSortBy (fun a b => titleLe a.title b.title)
            (rules.filter (fun r => r.sectionId == s.id))).map toRuleRef := by
      simp only [toSectionOut, groups_lookup]
    constructor
    · rw [hrules]
      exact ((jsSortBy_perm (fun a b => titleLe a.title b.title)
        (rules.filter (fun r => r.sectionId == s.id))).map toRuleRef)
    · rw [hrules]
      refine List.Pairwise.map _ ?_
        (jsSortBy_pairwise (fun a b : RuleMeta => titleLe a.title b.title)
          (fun a b => htot a.title b.title)
          (fun a b c => htr a.title b.title c.title)
          (rules.filter (fun r => r.sectionId == s.id)))
      intro a b hab
      exact hab

/-- A concrete total transitive comparator (string length) standing in for
the locale collation in the C5 witness. -/
def lenLe (a b : String) : Bool :=
  decide (strLen a ≤ strLen b)

theorem lenLe_total (a b : String) : lenLe a b = true ∨ lenLe b a = true := by
  simp only [lenLe, decide_eq_true_eq]
  omega

theorem lenLe_trans (a b c : String) (h1 : lenLe a b = true) (h2 : lenLe b c = true) :
    lenLe a c = true := by
  simp only [lenLe, decide_eq_true_eq] at h1 h2 ⊢
  omega

/-- C5 witness: two sections (declared out of order, one without rules) and
two rules; the emitted sections are sorted by order, keep both ids, and the
empty section keeps an empty rules list. -/
theorem generateOutput_sections_witness :
    ((generateArtifact lenLe
      [{ order := 2, id := "db", title := "DB", impact := "", description := "" },
       { order := 1, id := "arch", title := "A", impact := "", description := "" }]
      [{ slug := "arch-b", filename := "arch-b.md", title := "BB", impact := "",
         impactDescription := "", tags := [], sectionId := "arch", content := "" },
       { slug := "arch-a", filename := "arch-a.md", title := "A", impact := "",
         impactDescription := "", tags := [], sectionId := "arch", content := "" }]
      [] []).sections.Pairwise (fun a b => a.order ≤ b.order))
  ∧ (generateArtifact lenLe
      [{ order := 2, id := "db", title := "DB", impact := "", description := "" },
       { order := 1, id := "arch", title := "A", impact := "", description := "" }]
      [{ slug := "arch-b", filename := "arch-b.md", title := "BB", impact := "",
         impactDescription := "", tags := [], sectionId := "arch", content := "" },
       { slug := "arch-a", filename := "arch-a.md", title := "A", impact := "",
         impactDescription := "", tags := [], sectionId := "arch", content := "" }]
      [] []).sections.map (fun so => (so.id, so.rules.map (fun r => r.slug)))
      = [("arch", ["arch-a", "arch-b"]), ("db", [])] :=
  ⟨(generateOutput_sections lenLe lenLe_total lenLe_trans
      [{ order := 2, id := "db", title := "DB", impact := "", description := "" },
       { order := 1, id := "arch", title := "A", impact := "", description := "" }]
      [{ slug := "arch-b", filename := "arch-b.md", title := "BB", impact := "",
         impactDescription := "", tags := [], sectionId := "arch", content := "" },
       { slug := "arch-a", filename := "arch-a.md", title := "A", impact := "",
         impactDescription := "", tags := [], sectionId := "arch", content := "" }]
      [] []).1,
    by decide⟩

/-! ## Claim C1: missing mandatory inputs (corrected) -/

/-- C1 counterexample: with the section index file missing, the pipeline
writes no output — but the process exit code is 0, not non-zero, because
`main().catch(console.error)` handles the rejection and only logs it. -/
theorem mainRun_missing_input_cex :
    ({ sectionsFile := none, rulesDir := some [], guidesDir := none,
        conceptsDir := none } : FS).sectionsFile = none
  ∧ (mainRun (fun _ _ => true) (fun b => b)
      { sectionsFile := none, rulesDir := some [], guidesDir := none,
        conceptsDir := none }).output = none
  ∧ (mainRun (fun _ _ => true) (fun b => b)
      { sectionsFile := none, rulesDir := some [], guidesDir := none,
        conceptsDir := none }).exitCode = 0 :=
  ⟨rfl, rfl, rfl⟩

/-- C1 amended: if the section index file or the rules directory is
missing, no output artifact is written and the pipeline run aborts — the
rejected promise is caught by the top-level handler, which logs the error,
and the process then exits with code 0 (not non-zero). -/
theorem mainRun_missing_input (titleLe : String → String → Bool)
    (render : String → String) (fs : FS)
    (h : fs.sectionsFile = none ∨ fs.rulesDir = none) :
    (mainRun titleLe render fs).output = none
  ∧ (mainRun titleLe render fs).exitCode = 0
  ∧ (mainRun titleLe render fs).errorLogged = true := by
  rcases h with h | h
  · simp [mainRun, runPipeline, h]
  · cases hs : fs.sectionsFile <;> simp [mainRun, runPipeline, h, hs]

/-- C1 witness: the amended theorem at the concrete missing-index
filesystem. -/
theorem mainRun_missing_input_witness :
    (mainRun (fun _ _ => true) (fun b => b)
      { sectionsFile := none, rulesDir := some [], guidesDir := none,
        conceptsDir := none }).output = none
  ∧ (mainRun (fun _ _ => true) (fun b => b)
      { sectionsFile := none, rulesDir := some [], guidesDir := none,
        conceptsDir := none }).errorLogged = true :=
  ⟨(mainRun_missing_input (fun _ _ => true) (fun b => b)
      { sectionsFile := none, rulesDir := some [], guidesDir := none,
        conceptsDir := none } (Or.inl rfl)).1,
    (mainRun_missing_input (fun _ _ => true) (fun b => b)
      { sectionsFile := none, rulesDir := some [], guidesDir := none,
        conceptsDir := none } (Or.inl rfl)).2.2⟩

end GenContent
